import Mathlib

/-!
# `app show` / `env show` of copilot-cli: a shallow embedding

Sources embedded here:

* `internal/pkg/cli/app_show.go`: `showAppOpts.Validate`, `askName`, `Ask`,
  `description`, `Execute`;
* `internal/pkg/cli/env_show.go`: `showEnvOpts.Validate`, `askApp`, `askEnvName`,
  `Ask`, `Execute`.

Conventions of the embedding.

* A Go `error` is a `GoError`; a nil error is `none : Option GoError`.
* A collaborator (store, selector, pipeline service, version getter, describer) is a
  record of functions.  A call returning `(value, error)` is a function into `Except`:
  the code under study reads the value only after it has seen a nil error, and the
  collaborators are taken to honour the Go convention that a nil error comes with a
  usable (non-nil) value.
* Every function that calls collaborators also returns the list of calls it made, in the
  order it made them, so that "is invoked" and "is not invoked" are statements about
  that list.
* A Go slice is a `Slice`: the nil slice and a non-nil slice with no elements are
  different values.
* The `io.Writer` is the list of strings handed to it so far.
-/

namespace CopilotShow

/-! ## Errors -/

/-- The taxonomy of errors a collaborator can produce. -/
inductive ErrKind where
  | notFound
  | backend
  | internal
  deriving DecidableEq, Repr

/-- A Go error value: either an error produced by a collaborator, or the value built by
`fmt.Errorf` with a `%w` verb, which keeps its own message and the error it wraps. -/
inductive GoError where
  | leaf (kind : ErrKind) (msg : String)
  | wrapped (msg : String) (cause : GoError)
  deriving DecidableEq, Repr

/-- The method `Error()`: the message of the error. -/
def GoError.Error : GoError → String
  | .leaf _ msg => msg
  | .wrapped msg _ => msg

/-- The method `Unwrap()`: the wrapped error, when there is one. -/
def GoError.Unwrap : GoError → Option GoError
  | .leaf _ _ => none
  | .wrapped _ cause => some cause

/-- The call `fmt.Errorf(lead + "%w", err)` where `lead` is the already formatted text
in front of the `%w` verb: the message is `lead` followed by the message of `err`, and
the result wraps `err`. -/
def Errorf_w (lead : String) (err : GoError) : GoError :=
  GoError.wrapped (lead ++ err.Error) err

/-! ## Slices -/

/-- A Go slice: `nil`, or a non-nil slice holding the listed elements. -/
inductive Slice (α : Type) where
  | nil
  | mk (elems : List α)
  deriving DecidableEq, Repr

/-- The elements of a slice, in order; what `for _, x := range s` visits. -/
def Slice.toList {α : Type} : Slice α → List α
  | .nil => []
  | .mk elems => elems

/-- The builtin `len`. -/
def Slice.len {α : Type} (s : Slice α) : Nat := s.toList.length

/-- The test `s == nil`. -/
def Slice.isNil {α : Type} : Slice α → Bool
  | .nil => true
  | .mk _ => false

/-- The builtin `append(s, x)`: appending to the nil slice gives a non-nil slice. -/
def Slice.append {α : Type} (s : Slice α) (x : α) : Slice α :=
  Slice.mk (s.toList ++ [x])

/-! ## Data model

`config.Application`, `config.Environment` and `config.Workload` are declared in package
`config`, outside the embedded sources.  The fields the code reads or writes are modelled
by name; all their remaining fields are gathered in one field `rest` of a parameter
type, whose Go zero value is `default`. -/

/-- The type `config.Application`. -/
structure Application (Z : Type) where
  Name : String
  Domain : String
  rest : Z

/-- The type `config.Environment`. -/
structure Environment (X : Type) where
  Name : String
  AccountID : String
  Region : String
  Prod : Bool
  rest : X
  deriving DecidableEq, Repr

/-- The type `config.Workload`; its field `Type` is written `Type_` here. -/
structure Workload (Y : Type) where
  Name : String
  Type_ : String
  rest : Y
  deriving DecidableEq, Repr

/-- The type `describe.App`, with the fields set by the composite literal in
`description`.  `P` is the element type of the pipeline list. -/
structure App (X Y P : Type) where
  Name : String
  Version : String
  URI : String
  Envs : Slice (Environment X)
  Services : Slice (Workload Y)
  Pipelines : Slice P

/-- A Go `map[string]string`, as the list of its entries. -/
abbrev Tags := List (String × String)

/-! ## Collaborators -/

/-- The methods of the `store` interface the two commands call. -/
structure Store (X Y Z : Type) where
  GetApplication : String → Except GoError (Application Z)
  ListEnvironments : String → Except GoError (Slice (Environment X))
  ListServices : String → Except GoError (Slice (Workload Y))
  GetEnvironment : String → String → Except GoError (Environment X)

/-- The interface `pipelineGetter`. -/
structure pipelineGetter (P : Type) where
  GetPipelinesByTags : Tags → Except GoError (Slice P)

/-- The interface `versionGetter`. -/
structure versionGetter where
  Version : Unit → Except GoError String

/-- The interface `appSelector`. -/
structure appSelector where
  Application : String → String → Except GoError String

/-- The interface `configSelector`. -/
structure configSelector where
  Application : String → String → Except GoError String
  Environment : String → String → String → Except GoError String

/-- One call to a collaborator, with its arguments. -/
inductive Call where
  | GetApplication (name : String)
  | ListEnvironments (app : String)
  | ListServices (app : String)
  | GetEnvironment (app env : String)
  | GetPipelinesByTags (tags : Tags)
  | newVersionGetter (app : String)
  | Version
  | selApplication (msg help : String)
  | selEnvironment (msg help app : String)
  deriving DecidableEq, Repr

/-! ## `app show` -/

/-- The struct `showAppVars`. -/
structure showAppVars where
  name : String
  shouldOutputJSON : Bool

/-- The struct `showAppOpts`; it embeds `showAppVars`. -/
structure showAppOpts (X Y Z P : Type) extends showAppVars where
  store : Store X Y Z
  w : List String
  sel : appSelector
  pipelineSvc : pipelineGetter P
  newVersionGetter : String → Except GoError versionGetter

/-- What `description` hands back: the `*describe.App` (`none` is the nil pointer), the
error (`none` is the nil error), and the collaborator calls made, in order. -/
structure DescribeResult (X Y P : Type) where
  val : Option (App X Y P)
  err : Option GoError
  calls : List Call

/-- The first loop of `description`: starting from the nil slice, append the trimmed copy
of every environment, in order. -/
def trimEnvs {X : Type} [Inhabited X] (envs : Slice (Environment X)) :
    Slice (Environment X) :=
  envs.toList.foldl
    (fun trimmedEnvs env =>
      trimmedEnvs.append
        { Name := env.Name, AccountID := env.AccountID, Region := env.Region,
          Prod := env.Prod, rest := default })
    Slice.nil

/-- The second loop of `description`: starting from the nil slice, append the trimmed
copy of every workload, in order. -/
def trimSvcs {Y : Type} [Inhabited Y] (svcs : Slice (Workload Y)) : Slice (Workload Y) :=
  svcs.toList.foldl
    (fun trimmedSvcs svc =>
      trimmedSvcs.append { Name := svc.Name, Type_ := svc.Type_, rest := default })
    Slice.nil

/-- The method `showAppOpts.description`.  `AppTagKey` is the constant `deploy.AppTagKey`,
declared outside the embedded sources. -/
def showAppOpts.description {X Y Z P : Type} [Inhabited X] [Inhabited Y]
    (AppTagKey : String) (o : showAppOpts X Y Z P) : DescribeResult X Y P :=
  match o.store.GetApplication o.name with
  | .error err =>
    ⟨none, some (Errorf_w ("get application " ++ o.name ++ ": ") err),
      [Call.GetApplication o.name]⟩
  | .ok app =>
  match o.store.ListEnvironments o.name with
  | .error err =>
    ⟨none, some (Errorf_w ("list environments in application " ++ o.name ++ ": ") err),
      [Call.GetApplication o.name, Call.ListEnvironments o.name]⟩
  | .ok envs =>
  match o.store.ListServices o.name with
  | .error err =>
    ⟨none, some (Errorf_w ("list services in application " ++ o.name ++ ": ") err),
      [Call.GetApplication o.name, Call.ListEnvironments o.name, Call.ListServices o.name]⟩
  | .ok svcs =>
  match o.pipelineSvc.GetPipelinesByTags [(AppTagKey, o.name)] with
  | .error err =>
    ⟨none, some (Errorf_w ("list pipelines in application " ++ o.name ++ ": ") err),
      [Call.GetApplication o.name, Call.ListEnvironments o.name, Call.ListServices o.name,
        Call.GetPipelinesByTags [(AppTagKey, o.name)]]⟩
  | .ok pipelines =>
  let trimmedEnvs := trimEnvs envs
  let trimmedSvcs := trimSvcs svcs
  match o.newVersionGetter o.name with
  | .error err =>
    ⟨none, some err,
      [Call.GetApplication o.name, Call.ListEnvironments o.name, Call.ListServices o.name,
        Call.GetPipelinesByTags [(AppTagKey, o.name)], Call.newVersionGetter o.name]⟩
  | .ok versionGetter =>
  match versionGetter.Version () with
  | .error err =>
    ⟨none, some (Errorf_w ("get version for application " ++ o.name ++ ": ") err),
      [Call.GetApplication o.name, Call.ListEnvironments o.name, Call.ListServices o.name,
        Call.GetPipelinesByTags [(AppTagKey, o.name)], Call.newVersionGetter o.name,
        Call.Version]⟩
  | .ok version =>
    ⟨some
        { Name := app.Name, Version := version, URI := app.Domain, Envs := trimmedEnvs,
          Services := trimmedSvcs, Pipelines := pipelines },
      none,
      [Call.GetApplication o.name, Call.ListEnvironments o.name, Call.ListServices o.name,
        Call.GetPipelinesByTags [(AppTagKey, o.name)], Call.newVersionGetter o.name,
        Call.Version]⟩

/-- What a method returning only an `error` hands back, with the calls it made. -/
structure CallResult where
  err : Option GoError
  calls : List Call

/-- What a method that may assign fields of its receiver hands back: the error, the
receiver after the call, and the calls made. -/
structure Step (σ : Type) where
  err : Option GoError
  state : σ
  calls : List Call

/-- How a call ends: it returns an error value (possibly nil), or it panics on a nil
dereference. -/
inductive Outcome where
  | returned (err : Option GoError)
  | panicked
  deriving DecidableEq, Repr

/-- What `Execute` hands back: how it ended and the writer afterwards. -/
structure ExecuteResult where
  outcome : Outcome
  w : List String

/-- The call `fmt.Fprint(w, s)` with a single string operand: one more string handed to
the writer. -/
def Fprint (w : List String) (s : String) : List String := w ++ [s]

/-- The constant `appShowNamePrompt`. -/
def appShowNamePrompt : String := "Which application would you like to show?"

/-- The constant `appShowNameHelpPrompt`. -/
def appShowNameHelpPrompt : String := "An application is a collection of related services."

/-- The method `showAppOpts.Validate`. -/
def showAppOpts.Validate {X Y Z P : Type} (o : showAppOpts X Y Z P) : CallResult :=
  if o.name ≠ "" then
    match o.store.GetApplication o.name with
    | .error err =>
      ⟨some (Errorf_w ("get application " ++ o.name ++ ": ") err),
        [Call.GetApplication o.name]⟩
    | .ok _ => ⟨none, [Call.GetApplication o.name]⟩
  else ⟨none, []⟩

/-- The method `showAppOpts.askName`. -/
def showAppOpts.askName {X Y Z P : Type} (o : showAppOpts X Y Z P) :
    Step (showAppOpts X Y Z P) :=
  if o.name ≠ "" then ⟨none, o, []⟩
  else
    match o.sel.Application appShowNamePrompt appShowNameHelpPrompt with
    | .error err =>
      ⟨some (Errorf_w "select application: " err), o,
        [Call.selApplication appShowNamePrompt appShowNameHelpPrompt]⟩
    | .ok name =>
      ⟨none, { o with name := name },
        [Call.selApplication appShowNamePrompt appShowNameHelpPrompt]⟩

/-- The method `showAppOpts.Ask`. -/
def showAppOpts.Ask {X Y Z P : Type} (o : showAppOpts X Y Z P) :
    Step (showAppOpts X Y Z P) :=
  match o.askName with
  | ⟨some err, o1, calls⟩ => ⟨some err, o1, calls⟩
  | ⟨none, o1, calls⟩ => ⟨none, o1, calls⟩

/-- The method `showAppOpts.Execute`.  `HumanString` and `JSONString` are the methods of
`describe.App`, declared outside the embedded sources.  Calling a method on the nil
description is the panic branch. -/
def showAppOpts.Execute {X Y Z P : Type} [Inhabited X] [Inhabited Y]
    (AppTagKey : String) (HumanString : App X Y P → String)
    (JSONString : App X Y P → Except GoError String) (o : showAppOpts X Y Z P) :
    ExecuteResult :=
  match o.description AppTagKey with
  | ⟨_, some err, _⟩ => ⟨Outcome.returned (some err), o.w⟩
  | ⟨none, none, _⟩ => ⟨Outcome.panicked, o.w⟩
  | ⟨some description, none, _⟩ =>
    if !o.shouldOutputJSON then
      ⟨Outcome.returned none, Fprint o.w (HumanString description)⟩
    else
      match JSONString description with
      | .error err => ⟨Outcome.returned (some (Errorf_w "get JSON string: " err)), o.w⟩
      | .ok data => ⟨Outcome.returned none, Fprint o.w data⟩

/-! ## `env show` -/

/-- The constant `envShowAppNamePrompt`. -/
def envShowAppNamePrompt : String := "Which application is the environment in?"

/-- The constant `envShowAppNameHelpPrompt`. -/
def envShowAppNameHelpPrompt : String :=
  "An application is a collection of related services."

/-- The constant `envShowHelpPrompt`. -/
def envShowHelpPrompt : String :=
  "The detail of an environment will be shown (e.g., region, account ID, services)."

/-- The struct `showEnvVars`. -/
structure showEnvVars where
  appName : String
  name : String
  shouldOutputJSON : Bool
  shouldOutputResources : Bool

/-- The interface `envDescriber`; `E` is the type `describe.EnvDescription`. -/
structure envDescriber (E : Type) where
  Describe : Unit → Except GoError E

/-- The struct `showEnvOpts`; it embeds `showEnvVars`.  The field `describer` is `none`
while it holds the nil interface value.  The closure `initEnvDescriber` reads the
variables and may assign the field `describer`: it maps the variables and the current
describer to its error and the describer afterwards. -/
structure showEnvOpts (E X Y Z : Type) extends showEnvVars where
  w : List String
  store : Store X Y Z
  describer : Option (envDescriber E)
  sel : configSelector
  initEnvDescriber :
    showEnvVars → Option (envDescriber E) → Option GoError × Option (envDescriber E)

/-- The method `showEnvOpts.Validate`. -/
def showEnvOpts.Validate {E X Y Z : Type} (o : showEnvOpts E X Y Z) : CallResult :=
  if o.appName = "" then ⟨none, []⟩
  else
    match o.store.GetApplication o.appName with
    | .error err => ⟨some err, [Call.GetApplication o.appName]⟩
    | .ok _ =>
      if o.name ≠ "" then
        match o.store.GetEnvironment o.appName o.name with
        | .error err =>
          ⟨some err, [Call.GetApplication o.appName, Call.GetEnvironment o.appName o.name]⟩
        | .ok _ =>
          ⟨none, [Call.GetApplication o.appName, Call.GetEnvironment o.appName o.name]⟩
      else ⟨none, [Call.GetApplication o.appName]⟩

/-- The method `showEnvOpts.askApp`. -/
def showEnvOpts.askApp {E X Y Z : Type} (o : showEnvOpts E X Y Z) :
    Step (showEnvOpts E X Y Z) :=
  if o.appName ≠ "" then ⟨none, o, []⟩
  else
    match o.sel.Application envShowAppNamePrompt envShowAppNameHelpPrompt with
    | .error err =>
      ⟨some (Errorf_w "select application: " err), o,
        [Call.selApplication envShowAppNamePrompt envShowAppNameHelpPrompt]⟩
    | .ok app =>
      ⟨none, { o with appName := app },
        [Call.selApplication envShowAppNamePrompt envShowAppNameHelpPrompt]⟩

/-- The prompt `fmt.Sprintf(envShowNamePrompt, color.HighlightUserInput(appName))`;
`HighlightUserInput` is declared in package `color`, outside the embedded sources. -/
def envNamePrompt (HighlightUserInput : String → String) (appName : String) : String :=
  "Which environment of " ++ HighlightUserInput appName ++ " would you like to show?"

/-- The method `showEnvOpts.askEnvName`. -/
def showEnvOpts.askEnvName {E X Y Z : Type} (HighlightUserInput : String → String)
    (o : showEnvOpts E X Y Z) : Step (showEnvOpts E X Y Z) :=
  if o.name ≠ "" then ⟨none, o, []⟩
  else
    match o.sel.Environment (envNamePrompt HighlightUserInput o.appName)
        envShowHelpPrompt o.appName with
    | .error err =>
      ⟨some (Errorf_w ("select environment for application " ++ o.appName ++ ": ") err), o,
        [Call.selEnvironment (envNamePrompt HighlightUserInput o.appName)
          envShowHelpPrompt o.appName]⟩
    | .ok env =>
      ⟨none, { o with name := env },
        [Call.selEnvironment (envNamePrompt HighlightUserInput o.appName)
          envShowHelpPrompt o.appName]⟩

/-- The method `showEnvOpts.Ask`. -/
def showEnvOpts.Ask {E X Y Z : Type} (HighlightUserInput : String → String)
    (o : showEnvOpts E X Y Z) : Step (showEnvOpts E X Y Z) :=
  match o.askApp with
  | ⟨some err, o1, calls⟩ => ⟨some err, o1, calls⟩
  | ⟨none, o1, calls⟩ =>
    match o1.askEnvName HighlightUserInput with
    | ⟨err, o2, calls2⟩ => ⟨err, o2, calls ++ calls2⟩

/-- The method `showEnvOpts.Execute`.  `HumanString` and `JSONString` are the methods of
`describe.EnvDescription`, declared outside the embedded sources.  Calling `Describe` on
the nil describer is the panic branch. -/
def showEnvOpts.Execute {E X Y Z : Type} (HumanString : E → String)
    (JSONString : E → Except GoError String) (o : showEnvOpts E X Y Z) : ExecuteResult :=
  match o.initEnvDescriber o.toshowEnvVars o.describer with
  | (some err, _) => ⟨Outcome.returned (some err), o.w⟩
  | (none, none) => ⟨Outcome.panicked, o.w⟩
  | (none, some describer) =>
    match describer.Describe () with
    | .error err =>
      ⟨Outcome.returned (some (Errorf_w ("describe environment " ++ o.name ++ ": ") err)),
        o.w⟩
    | .ok env =>
      if o.shouldOutputJSON then
        match JSONString env with
        | .error err => ⟨Outcome.returned (some err), o.w⟩
        | .ok data => ⟨Outcome.returned none, Fprint o.w data⟩
      else ⟨Outcome.returned none, Fprint o.w (HumanString env)⟩

/-! ## Reading the list of calls -/

/-- The tag filters of the `GetPipelinesByTags` calls in a list of calls, in order. -/
def pipelineQueries (calls : List Call) : List Tags :=
  calls.filterMap fun c =>
    match c with
    | .GetPipelinesByTags tags => some tags
    | _ => none

/-- The application arguments of the `sel.Environment` calls in a list of calls. -/
def envSelections (calls : List Call) : List String :=
  calls.filterMap fun c =>
    match c with
    | .selEnvironment _ _ app => some app
    | _ => none

/-- The number of `sel.Application` calls in a list of calls. -/
def appSelections (calls : List Call) : Nat :=
  (calls.filter fun c =>
    match c with
    | .selApplication _ _ => true
    | _ => false).length

/-! ## A pipeline index that filters by tags -/

/-- A tag filter matches a tag set when every entry of the filter is an entry of the
tag set. -/
def tagsMatch (filter tags : Tags) : Bool :=
  filter.all fun kv => tags.lookup kv.1 == some kv.2

/-- Modelled from the spec: the pipeline index itself (package `codepipeline`) is not
among the embedded sources; this is an index that holds pipelines with their tags and
answers a filter with precisely the pipelines whose tags match it, in stored order. -/
def exactIndex {P : Type} (content : List (P × Tags)) : pipelineGetter P :=
  ⟨fun filter => .ok (Slice.mk ((content.filter fun pt => tagsMatch filter pt.2).map Prod.fst))⟩

/-! ## A concrete world

A store with the application "my-app" (environments "test" and "prod", one service) and
the application "new-app" (no environment, no workload), a pipeline index with one
pipeline of "my-app" and one of "other-app", and a version getter answering "v1.2.0".
The remaining fields of an environment and of a workload are one string here. -/

/-- The value of `deploy.AppTagKey` used in the concrete world. -/
def demoAppTagKey : String := "copilot-application"

/-- The error of the concrete store for an unknown application. -/
def demoNoSuchApp : GoError := GoError.leaf ErrKind.notFound "couldn't find an application"

/-- The error of the concrete store for an unknown environment. -/
def demoNoSuchEnv : GoError := GoError.leaf ErrKind.notFound "couldn't find environment"

/-- The environments of "my-app" as the concrete store holds them. -/
def demoEnvs : Slice (Environment String) :=
  Slice.mk
    [{ Name := "test", AccountID := "1111", Region := "us-west-2", Prod := false,
       rest := "arn:role/test-manager" },
     { Name := "prod", AccountID := "2222", Region := "us-east-1", Prod := true,
       rest := "arn:role/prod-manager" }]

/-- The workloads of "my-app" as the concrete store holds them. -/
def demoSvcs : Slice (Workload String) :=
  Slice.mk [{ Name := "frontend", Type_ := "Load Balanced Web Service", rest := "my-app" }]

/-- The concrete store. -/
def demoStore : Store String String Unit where
  GetApplication := fun name =>
    if name = "my-app" then .ok ⟨"my-app", "example.com", ()⟩
    else if name = "new-app" then .ok ⟨"new-app", "", ()⟩
    else .error demoNoSuchApp
  ListEnvironments := fun app => if app = "my-app" then .ok demoEnvs else .ok (Slice.mk [])
  ListServices := fun app => if app = "my-app" then .ok demoSvcs else .ok (Slice.mk [])
  GetEnvironment := fun app env =>
    if app = "my-app" ∧ env = "test" then
      .ok ⟨"test", "1111", "us-west-2", false, "arn:role/test-manager"⟩
    else if app = "my-app" ∧ env = "prod" then
      .ok ⟨"prod", "2222", "us-east-1", true, "arn:role/prod-manager"⟩
    else .error demoNoSuchEnv

/-- The concrete pipeline index. -/
def demoPipelines : pipelineGetter String :=
  exactIndex
    [("pipeline-my-app", [(demoAppTagKey, "my-app")]),
     ("pipeline-other-app", [(demoAppTagKey, "other-app")])]

/-- The concrete version getter. -/
def demoVersionGetter : versionGetter := ⟨fun _ => .ok "v1.2.0"⟩

/-- The concrete `showAppOpts` for a given name and output mode. -/
def demoAppOpts (name : String) (json : Bool) : showAppOpts String String Unit String where
  name := name
  shouldOutputJSON := json
  store := demoStore
  w := []
  sel := ⟨fun _ _ => .ok "my-app"⟩
  pipelineSvc := demoPipelines
  newVersionGetter := fun _ => .ok demoVersionGetter

/-- All six collaborator calls of `description` succeed for the receiver `o`. -/
def AllSucceed {X Y Z P : Type} (K : String) (o : showAppOpts X Y Z P) : Prop :=
  ∃ (app : Application Z) (envs : Slice (Environment X)) (svcs : Slice (Workload Y))
    (pipelines : Slice P) (vg : versionGetter) (version : String),
    o.store.GetApplication o.name = .ok app ∧
    o.store.ListEnvironments o.name = .ok envs ∧
    o.store.ListServices o.name = .ok svcs ∧
    o.pipelineSvc.GetPipelinesByTags [(K, o.name)] = .ok pipelines ∧
    o.newVersionGetter o.name = .ok vg ∧
    vg.Version () = .ok version

/-- The returned error `r` is the error `e` wrapped behind the text `lead`: its message is
`lead` followed by the message of `e`, it unwraps to `e`, and it is not `e` itself. -/
def WrappedWith (lead : String) (e : GoError) (r : Option GoError) : Prop :=
  ∃ err, r = some err ∧ err.Error = lead ++ e.Error ∧ err.Unwrap = some e ∧ err ≠ e

/-- An error of the concrete world for a collaborator that cannot be reached. -/
def demoBackendDown : GoError := GoError.leaf ErrKind.backend "service unavailable"

/-- An error of the concrete world, as the version getter constructor builds it. -/
def demoNewDescriberFailed : GoError :=
  GoError.leaf ErrKind.backend "new app describer for application my-app: no session"

/-- The concrete `showAppOpts` for "my-app" with a pipeline index that fails and a
version getter constructor that fails too. -/
def demoPipelinesDown : showAppOpts String String Unit String :=
  { demoAppOpts "my-app" false with
    pipelineSvc := ⟨fun _ => .error demoBackendDown⟩
    newVersionGetter := fun _ => .error demoNewDescriberFailed }

/-- The concrete `showAppOpts` for "my-app" with a pipeline index that fails and a
version getter that works. -/
def demoPipelinesDownOnly : showAppOpts String String Unit String :=
  { demoAppOpts "my-app" false with pipelineSvc := ⟨fun _ => .error demoBackendDown⟩ }

/-- The concrete `showAppOpts` for "my-app" with a version getter constructor that
fails. -/
def demoConstructorDown : showAppOpts String String Unit String :=
  { demoAppOpts "my-app" false with
    newVersionGetter := fun _ => .error demoNewDescriberFailed }

/-- The concrete `showAppOpts` for "my-app" with a version getter whose `Version`
fails. -/
def demoVersionDown : showAppOpts String String Unit String :=
  { demoAppOpts "my-app" false with
    newVersionGetter := fun _ => .ok ⟨fun _ => .error demoBackendDown⟩ }

/-- The concrete `showEnvOpts` for a given application name, environment name and output
mode.  The application selector answers "my-app", the environment selector answers
"test"; the description of an environment is its store record, and the describer is set
up from the store the way `newShowEnvOpts` does. -/
def demoEnvOpts (appName name : String) (json : Bool) :
    showEnvOpts (Environment String) String String Unit where
  appName := appName
  name := name
  shouldOutputJSON := json
  shouldOutputResources := false
  w := []
  store := demoStore
  describer := none
  sel := ⟨fun _ _ => .ok "my-app", fun _ _ _ => .ok "test"⟩
  initEnvDescriber := fun vars describer =>
    match demoStore.GetEnvironment vars.appName vars.name with
    | .error err =>
      (some (Errorf_w ("creating describer for environment " ++ vars.name ++
        " in application " ++ vars.appName ++ ": ") err), describer)
    | .ok env => (none, some ⟨fun _ => .ok env⟩)

/-- A rendering of `describe.App` for the concrete world. -/
def demoHumanString (d : App String String String) : String := d.Name ++ " " ++ d.Version

/-- A JSON encoder of `describe.App` for the concrete world. -/
def demoJSONString (d : App String String String) : Except GoError String :=
  .ok ("name=" ++ d.Name)

/-- A rendering of an environment description for the concrete world. -/
def demoEnvHumanString (env : Environment String) : String := env.Name ++ " " ++ env.Region

/-- A JSON encoder of an environment description for the concrete world; it fails. -/
def demoEnvJSONString (_ : Environment String) : Except GoError String :=
  .error (GoError.leaf ErrKind.internal "unsupported value")

/-- The concrete `showEnvOpts` with an application selector that fails. -/
def demoEnvOptsNoApp (name : String) :
    showEnvOpts (Environment String) String String Unit :=
  { demoEnvOpts "" name false with
    sel := ⟨fun _ _ => .error demoBackendDown, fun _ _ _ => .ok "test"⟩ }

/-! ## Helper lemmas -/

theorem Slice.toList_append {α : Type} (s : Slice α) (x : α) :
    (s.append x).toList = s.toList ++ [x] := rfl

theorem foldl_append_toList {α β : Type} (f : α → β) (l : List α) (acc : Slice β) :
    (l.foldl (fun s a => s.append (f a)) acc).toList = acc.toList ++ l.map f := by
  induction l generalizing acc with
  | nil => simp
  | cons a l ih => simp [ih, Slice.toList_append]

theorem trimEnvs_toList {X : Type} [Inhabited X] (envs : Slice (Environment X)) :
    (trimEnvs envs).toList =
      envs.toList.map (fun env =>
        ({ Name := env.Name, AccountID := env.AccountID, Region := env.Region,
           Prod := env.Prod, rest := default } : Environment X)) := by
  simpa [Slice.toList] using foldl_append_toList
    (fun env : Environment X =>
      ({ Name := env.Name, AccountID := env.AccountID, Region := env.Region,
         Prod := env.Prod, rest := default } : Environment X)) envs.toList Slice.nil

theorem trimSvcs_toList {Y : Type} [Inhabited Y] (svcs : Slice (Workload Y)) :
    (trimSvcs svcs).toList =
      svcs.toList.map (fun svc =>
        ({ Name := svc.Name, Type_ := svc.Type_, rest := default } : Workload Y)) := by
  simpa [Slice.toList] using foldl_append_toList
    (fun svc : Workload Y =>
      ({ Name := svc.Name, Type_ := svc.Type_, rest := default } : Workload Y))
    svcs.toList Slice.nil

/-- When all six collaborator calls succeed, `description` returns the assembled
`describe.App`, a nil error, and has made the six calls in order. -/
theorem description_ok {X Y Z P : Type} [Inhabited X] [Inhabited Y] (K : String)
    (o : showAppOpts X Y Z P) (app : Application Z) (envs : Slice (Environment X))
    (svcs : Slice (Workload Y)) (pipelines : Slice P) (vg : versionGetter)
    (version : String)
    (hApp : o.store.GetApplication o.name = .ok app)
    (hEnvs : o.store.ListEnvironments o.name = .ok envs)
    (hSvcs : o.store.ListServices o.name = .ok svcs)
    (hPipes : o.pipelineSvc.GetPipelinesByTags [(K, o.name)] = .ok pipelines)
    (hNew : o.newVersionGetter o.name = .ok vg)
    (hVer : vg.Version () = .ok version) :
    o.description K =
      ⟨some
          { Name := app.Name, Version := version, URI := app.Domain,
            Envs := trimEnvs envs, Services := trimSvcs svcs, Pipelines := pipelines },
        none,
        [Call.GetApplication o.name, Call.ListEnvironments o.name,
          Call.ListServices o.name, Call.GetPipelinesByTags [(K, o.name)],
          Call.newVersionGetter o.name, Call.Version]⟩ := by
  simp only [showAppOpts.description, hApp, hEnvs, hSvcs, hPipes, hNew, hVer]

/-- How `description` ends when `GetApplication` fails. -/
theorem description_getApplication_error {X Y Z P : Type} [Inhabited X] [Inhabited Y]
    (K : String) (o : showAppOpts X Y Z P) (e : GoError)
    (hApp : o.store.GetApplication o.name = .error e) :
    o.description K =
      ⟨none, some (Errorf_w ("get application " ++ o.name ++ ": ") e),
        [Call.GetApplication o.name]⟩ := by
  simp only [showAppOpts.description, hApp]

/-- How `description` ends when `ListEnvironments` is the first call to fail. -/
theorem description_listEnvironments_error {X Y Z P : Type} [Inhabited X] [Inhabited Y]
    (K : String) (o : showAppOpts X Y Z P) (app : Application Z) (e : GoError)
    (hApp : o.store.GetApplication o.name = .ok app)
    (hEnvs : o.store.ListEnvironments o.name = .error e) :
    o.description K =
      ⟨none, some (Errorf_w ("list environments in application " ++ o.name ++ ": ") e),
        [Call.GetApplication o.name, Call.ListEnvironments o.name]⟩ := by
  simp only [showAppOpts.description, hApp, hEnvs]

/-- How `description` ends when `ListServices` is the first call to fail. -/
theorem description_listServices_error {X Y Z P : Type} [Inhabited X] [Inhabited Y]
    (K : String) (o : showAppOpts X Y Z P) (app : Application Z)
    (envs : Slice (Environment X)) (e : GoError)
    (hApp : o.store.GetApplication o.name = .ok app)
    (hEnvs : o.store.ListEnvironments o.name = .ok envs)
    (hSvcs : o.store.ListServices o.name = .error e) :
    o.description K =
      ⟨none, some (Errorf_w ("list services in application " ++ o.name ++ ": ") e),
        [Call.GetApplication o.name, Call.ListEnvironments o.name,
          Call.ListServices o.name]⟩ := by
  simp only [showAppOpts.description, hApp, hEnvs, hSvcs]

/-- How `description` ends when `GetPipelinesByTags` is the first call to fail. -/
theorem description_getPipelinesByTags_error {X Y Z P : Type} [Inhabited X] [Inhabited Y]
    (K : String) (o : showAppOpts X Y Z P) (app : Application Z)
    (envs : Slice (Environment X)) (svcs : Slice (Workload Y)) (e : GoError)
    (hApp : o.store.GetApplication o.name = .ok app)
    (hEnvs : o.store.ListEnvironments o.name = .ok envs)
    (hSvcs : o.store.ListServices o.name = .ok svcs)
    (hPipes : o.pipelineSvc.GetPipelinesByTags [(K, o.name)] = .error e) :
    o.description K =
      ⟨none, some (Errorf_w ("list pipelines in application " ++ o.name ++ ": ") e),
        [Call.GetApplication o.name, Call.ListEnvironments o.name,
          Call.ListServices o.name, Call.GetPipelinesByTags [(K, o.name)]]⟩ := by
  simp only [showAppOpts.description, hApp, hEnvs, hSvcs, hPipes]

/-- How `description` ends when the version getter constructor is the first call to
fail. -/
theorem description_newVersionGetter_error {X Y Z P : Type} [Inhabited X] [Inhabited Y]
    (K : String) (o : showAppOpts X Y Z P) (app : Application Z)
    (envs : Slice (Environment X)) (svcs : Slice (Workload Y)) (pipelines : Slice P)
    (e : GoError)
    (hApp : o.store.GetApplication o.name = .ok app)
    (hEnvs : o.store.ListEnvironments o.name = .ok envs)
    (hSvcs : o.store.ListServices o.name = .ok svcs)
    (hPipes : o.pipelineSvc.GetPipelinesByTags [(K, o.name)] = .ok pipelines)
    (hNew : o.newVersionGetter o.name = .error e) :
    o.description K =
      ⟨none, some e,
        [Call.GetApplication o.name, Call.ListEnvironments o.name,
          Call.ListServices o.name, Call.GetPipelinesByTags [(K, o.name)],
          Call.newVersionGetter o.name]⟩ := by
  simp only [showAppOpts.description, hApp, hEnvs, hSvcs, hPipes, hNew]

/-- How `description` ends when `Version` is the first call to fail. -/
theorem description_version_error {X Y Z P : Type} [Inhabited X] [Inhabited Y]
    (K : String) (o : showAppOpts X Y Z P) (app : Application Z)
    (envs : Slice (Environment X)) (svcs : Slice (Workload Y)) (pipelines : Slice P)
    (vg : versionGetter) (e : GoError)
    (hApp : o.store.GetApplication o.name = .ok app)
    (hEnvs : o.store.ListEnvironments o.name = .ok envs)
    (hSvcs : o.store.ListServices o.name = .ok svcs)
    (hPipes : o.pipelineSvc.GetPipelinesByTags [(K, o.name)] = .ok pipelines)
    (hNew : o.newVersionGetter o.name = .ok vg)
    (hVer : vg.Version () = .error e) :
    o.description K =
      ⟨none, some (Errorf_w ("get version for application " ++ o.name ++ ": ") e),
        [Call.GetApplication o.name, Call.ListEnvironments o.name,
          Call.ListServices o.name, Call.GetPipelinesByTags [(K, o.name)],
          Call.newVersionGetter o.name, Call.Version]⟩ := by
  simp only [showAppOpts.description, hApp, hEnvs, hSvcs, hPipes, hNew, hVer]

/-- The two ways `description` can end: a description with a nil error after six
successful calls, or a nil description with an error after a failed call. -/
theorem description_cases {X Y Z P : Type} [Inhabited X] [Inhabited Y]
    (K : String) (o : showAppOpts X Y Z P) :
    (∃ (app : Application Z) (envs : Slice (Environment X)) (svcs : Slice (Workload Y))
        (pipelines : Slice P) (vg : versionGetter) (version : String),
        o.store.GetApplication o.name = .ok app ∧
        o.store.ListEnvironments o.name = .ok envs ∧
        o.store.ListServices o.name = .ok svcs ∧
        o.pipelineSvc.GetPipelinesByTags [(K, o.name)] = .ok pipelines ∧
        o.newVersionGetter o.name = .ok vg ∧
        vg.Version () = .ok version ∧
        (o.description K).val =
          some { Name := app.Name, Version := version, URI := app.Domain,
                 Envs := trimEnvs envs, Services := trimSvcs svcs,
                 Pipelines := pipelines } ∧
        (o.description K).err = none) ∨
    (¬ AllSucceed K o ∧ (o.description K).val = none ∧
      ∃ e, (o.description K).err = some e) := by
  cases hApp : o.store.GetApplication o.name with
  | error e =>
    right
    rw [description_getApplication_error K o e hApp]
    exact ⟨(by rintro ⟨a, _, _, _, _, _, h, _⟩; rw [hApp] at h; cases h), rfl, _, rfl⟩
  | ok app =>
  cases hEnvs : o.store.ListEnvironments o.name with
  | error e =>
    right
    rw [description_listEnvironments_error K o app e hApp hEnvs]
    exact ⟨(by rintro ⟨_, _, _, _, _, _, _, h, _⟩; rw [hEnvs] at h; cases h), rfl, _, rfl⟩
  | ok envs =>
  cases hSvcs : o.store.ListServices o.name with
  | error e =>
    right
    rw [description_listServices_error K o app envs e hApp hEnvs hSvcs]
    exact ⟨(by rintro ⟨_, _, _, _, _, _, _, _, h, _⟩; rw [hSvcs] at h; cases h), rfl, _, rfl⟩
  | ok svcs =>
  cases hPipes : o.pipelineSvc.GetPipelinesByTags [(K, o.name)] with
  | error e =>
    right
    rw [description_getPipelinesByTags_error K o app envs svcs e hApp hEnvs hSvcs hPipes]
    exact ⟨(by rintro ⟨_, _, _, _, _, _, _, _, _, h, _⟩; rw [hPipes] at h; cases h),
      rfl, _, rfl⟩
  | ok pipelines =>
  cases hNew : o.newVersionGetter o.name with
  | error e =>
    right
    rw [description_newVersionGetter_error K o app envs svcs pipelines e hApp hEnvs hSvcs
      hPipes hNew]
    exact ⟨(by rintro ⟨_, _, _, _, _, _, _, _, _, _, h, _⟩; rw [hNew] at h; cases h),
      rfl, _, rfl⟩
  | ok vg =>
  cases hVer : vg.Version () with
  | error e =>
    right
    rw [description_version_error K o app envs svcs pipelines vg e hApp hEnvs hSvcs
      hPipes hNew hVer]
    refine ⟨?_, rfl, _, rfl⟩
    rintro ⟨_, _, _, _, vg2, _, _, _, _, _, h, h2⟩
    rw [hNew] at h
    cases h
    rw [hVer] at h2
    cases h2
  | ok version =>
    left
    rw [description_ok K o app envs svcs pipelines vg version hApp hEnvs hSvcs hPipes
      hNew hVer]
    exact ⟨app, envs, svcs, pipelines, vg, version, rfl, rfl, rfl, rfl, rfl, hVer, rfl, rfl⟩

/-- An error built by `fmt.Errorf` with `%w` is never the error it wraps. -/
theorem wrapped_ne_cause (msg : String) (e : GoError) : GoError.wrapped msg e ≠ e := by
  induction e generalizing msg with
  | leaf k m => intro h; cases h
  | wrapped m c ih =>
    intro h
    injection h with _ h2
    exact ih m h2

/-! ## Theorems -/

/-- C1: when every collaborator call succeeds, `description` returns a description (and
a nil error) whose `Envs` has as many elements as the store's environment list and whose
`Services` has as many elements as the store's workload list; `Envs` is, element by
element and in the store's order, the store's list with `Name`, `AccountID`, `Region`
and `Prod` kept and every other field set to its zero value, and `Services` is the
store's list with `Name` and `Type` kept and every other field set to its zero value. -/
theorem description_projects_store_lists {X Y Z P : Type} [Inhabited X] [Inhabited Y]
    (K : String) (o : showAppOpts X Y Z P) (app : Application Z)
    (envs : Slice (Environment X)) (svcs : Slice (Workload Y)) (pipelines : Slice P)
    (vg : versionGetter) (version : String)
    (hApp : o.store.GetApplication o.name = .ok app)
    (hEnvs : o.store.ListEnvironments o.name = .ok envs)
    (hSvcs : o.store.ListServices o.name = .ok svcs)
    (hPipes : o.pipelineSvc.GetPipelinesByTags [(K, o.name)] = .ok pipelines)
    (hNew : o.newVersionGetter o.name = .ok vg)
    (hVer : vg.Version () = .ok version) :
    ∃ d : App X Y P,
      (o.description K).val = some d ∧ (o.description K).err = none ∧
      d.Envs.len = envs.len ∧ d.Services.len = svcs.len ∧
      d.Envs.toList =
        envs.toList.map (fun env =>
          ({ Name := env.Name, AccountID := env.AccountID, Region := env.Region,
             Prod := env.Prod, rest := default } : Environment X)) ∧
      d.Services.toList =
        svcs.toList.map (fun svc =>
          ({ Name := svc.Name, Type_ := svc.Type_, rest := default } : Workload Y)) := by
  rw [description_ok K o app envs svcs pipelines vg version hApp hEnvs hSvcs hPipes hNew hVer]
  refine ⟨_, rfl, rfl, ?_, ?_, trimEnvs_toList envs, trimSvcs_toList svcs⟩
  · simp [Slice.len, trimEnvs_toList]
  · simp [Slice.len, trimSvcs_toList]

/-- Witness of C1 in the concrete world: the two environments and the one service of
"my-app" come back trimmed, in the store's order. -/
theorem description_projects_store_lists_witness :
    ∃ d : App String String String,
      ((demoAppOpts "my-app" false).description demoAppTagKey).val = some d ∧
      ((demoAppOpts "my-app" false).description demoAppTagKey).err = none ∧
      d.Envs.len = demoEnvs.len ∧ d.Services.len = demoSvcs.len ∧
      d.Envs.toList =
        demoEnvs.toList.map (fun env =>
          ({ Name := env.Name, AccountID := env.AccountID, Region := env.Region,
             Prod := env.Prod, rest := default } : Environment String)) ∧
      d.Services.toList =
        demoSvcs.toList.map (fun svc =>
          ({ Name := svc.Name, Type_ := svc.Type_, rest := default } : Workload String)) :=
  description_projects_store_lists demoAppTagKey (demoAppOpts "my-app" false)
    ⟨"my-app", "example.com", ()⟩ demoEnvs demoSvcs (Slice.mk ["pipeline-my-app"])
    demoVersionGetter "v1.2.0" rfl rfl rfl rfl rfl rfl

/-- C2, as stated, fails at the application name "ghost-app" in the concrete world: the
store answers `GetApplication` with its not-found error, and the error `description`
returns is not that error: it is a new error whose message is the store's message with
"get application ghost-app: " in front. -/
theorem description_notFound_returned_verbatim_counterexample :
    demoStore.GetApplication "ghost-app" = .error demoNoSuchApp ∧
    ((demoAppOpts "ghost-app" false).description demoAppTagKey).err ≠ some demoNoSuchApp ∧
    ((demoAppOpts "ghost-app" false).description demoAppTagKey).err.map GoError.Error =
      some "get application ghost-app: couldn't find an application" ∧
    demoNoSuchApp.Error = "couldn't find an application" := by
  refine ⟨rfl, ?_, ?_, rfl⟩ <;> decide

/-- C2, amended: when `GetApplication` fails with an error `e` (a not-found error in
particular), `description` returns no description and an error that wraps `e`: its
`Unwrap` is `e` and its message is "get application ", the name, ": " and the message of
`e`.  The only collaborator call made is that `GetApplication`: `ListEnvironments`,
`ListServices`, `GetPipelinesByTags`, the version getter constructor and `Version` are
not called. -/
theorem description_getApplication_failure_short_circuits {X Y Z P : Type} [Inhabited X]
    [Inhabited Y] (K : String) (o : showAppOpts X Y Z P) (e : GoError)
    (hApp : o.store.GetApplication o.name = .error e) :
    (o.description K).val = none ∧
    (∃ err, (o.description K).err = some err ∧ err.Unwrap = some e ∧
      err.Error = "get application " ++ o.name ++ ": " ++ e.Error) ∧
    (o.description K).calls = [Call.GetApplication o.name] := by
  rw [description_getApplication_error K o e hApp]
  exact ⟨rfl, ⟨_, rfl, rfl, rfl⟩, rfl⟩

/-- Witness of the amended C2 at "ghost-app" in the concrete world. -/
theorem description_getApplication_failure_short_circuits_witness :
    ((demoAppOpts "ghost-app" false).description demoAppTagKey).val = none ∧
    (∃ err, ((demoAppOpts "ghost-app" false).description demoAppTagKey).err = some err ∧
      err.Unwrap = some demoNoSuchApp ∧
      err.Error = "get application " ++ (demoAppOpts "ghost-app" false).name ++ ": " ++
        demoNoSuchApp.Error) ∧
    ((demoAppOpts "ghost-app" false).description demoAppTagKey).calls =
      [Call.GetApplication (demoAppOpts "ghost-app" false).name] :=
  description_getApplication_failure_short_circuits demoAppTagKey
    (demoAppOpts "ghost-app" false) demoNoSuchApp rfl

/-- C3, as stated, fails at the application name "ghost-app" in the concrete world:
`GetApplication` fails there and `description` returns without querying the pipeline
index at all, so the index is not queried exactly once for every application name. -/
theorem description_pipeline_query_once_counterexample :
    pipelineQueries ((demoAppOpts "ghost-app" false).description demoAppTagKey).calls = [] ∧
    (pipelineQueries
      ((demoAppOpts "ghost-app" false).description demoAppTagKey).calls).length ≠ 1 := by
  decide

/-- C3, amended: whenever `GetApplication`, `ListEnvironments` and `ListServices` succeed
for the application name, `description` queries the pipeline index exactly once, with
the filter whose single entry maps `deploy.AppTagKey` to the name; when one of those
three calls fails, `description` returns without querying the pipeline index.  Whenever
`description` returns a description, its `Pipelines` is exactly the list the index
returned for that filter.  Hence, over any index that answers a filter with precisely
the pipelines whose tags match it, the description lists exactly the stored pipelines
whose `deploy.AppTagKey` tag is the application name, in stored order; in particular,
over an index holding a pipeline tagged for "my-app" and a pipeline tagged for
"other-app", the description of "my-app" lists the first pipeline and nothing else. -/
theorem description_pipelines_by_app_tag {X Y Z P : Type} [Inhabited X] [Inhabited Y]
    (K : String) (o : showAppOpts X Y Z P) :
    (∀ app envs svcs, o.store.GetApplication o.name = .ok app →
      o.store.ListEnvironments o.name = .ok envs →
      o.store.ListServices o.name = .ok svcs →
      pipelineQueries (o.description K).calls = [[(K, o.name)]]) ∧
    (∀ e, o.store.GetApplication o.name = .error e →
      pipelineQueries (o.description K).calls = []) ∧
    (∀ app e, o.store.GetApplication o.name = .ok app →
      o.store.ListEnvironments o.name = .error e →
      pipelineQueries (o.description K).calls = []) ∧
    (∀ app envs e, o.store.GetApplication o.name = .ok app →
      o.store.ListEnvironments o.name = .ok envs →
      o.store.ListServices o.name = .error e →
      pipelineQueries (o.description K).calls = []) ∧
    (∀ d, (o.description K).val = some d →
      o.pipelineSvc.GetPipelinesByTags [(K, o.name)] = .ok d.Pipelines) ∧
    (∀ content : List (P × Tags), o.pipelineSvc = exactIndex content →
      ∀ d, (o.description K).val = some d →
        d.Pipelines =
          Slice.mk ((content.filter fun pt => pt.2.lookup K == some o.name).map Prod.fst) ∧
        ∀ p, p ∈ d.Pipelines.toList ↔
          ∃ tags, (p, tags) ∈ content ∧ tags.lookup K = some o.name) ∧
    (∀ p1 p2 : P, o.name = "my-app" →
      o.pipelineSvc = exactIndex [(p1, [(K, "my-app")]), (p2, [(K, "other-app")])] →
      ∀ d, (o.description K).val = some d → d.Pipelines = Slice.mk [p1]) := by
  have hpass : ∀ d, (o.description K).val = some d →
      o.pipelineSvc.GetPipelinesByTags [(K, o.name)] = .ok d.Pipelines := by
    intro d hd
    rcases description_cases K o with
      ⟨app, envs, svcs, pipelines, vg, version, _, _, _, h4, _, _, hv, _⟩ | ⟨_, hv, _⟩
    · rw [hv] at hd
      cases hd
      exact h4
    · rw [hv] at hd
      cases hd
  have hgen : ∀ content : List (P × Tags), o.pipelineSvc = exactIndex content →
      ∀ d, (o.description K).val = some d →
        d.Pipelines =
          Slice.mk ((content.filter fun pt => pt.2.lookup K == some o.name).map Prod.fst) := by
    intro content hidx d hd
    have h := hpass d hd
    rw [hidx] at h
    simp only [exactIndex, tagsMatch, List.all_cons, List.all_nil, Bool.and_true,
      Except.ok.injEq] at h
    exact h.symm
  refine ⟨?_, ?_, ?_, ?_, hpass, ?_, ?_⟩
  · intro app envs svcs hApp hEnvs hSvcs
    cases hPipes : o.pipelineSvc.GetPipelinesByTags [(K, o.name)] with
    | error e =>
      rw [description_getPipelinesByTags_error K o app envs svcs e hApp hEnvs hSvcs hPipes]
      rfl
    | ok pipelines =>
    cases hNew : o.newVersionGetter o.name with
    | error e =>
      rw [description_newVersionGetter_error K o app envs svcs pipelines e hApp hEnvs hSvcs
        hPipes hNew]
      rfl
    | ok vg =>
    cases hVer : vg.Version () with
    | error e =>
      rw [description_version_error K o app envs svcs pipelines vg e hApp hEnvs hSvcs
        hPipes hNew hVer]
      rfl
    | ok version =>
      rw [description_ok K o app envs svcs pipelines vg version hApp hEnvs hSvcs hPipes
        hNew hVer]
      rfl
  · intro e hApp
    rw [description_getApplication_error K o e hApp]
    rfl
  · intro app e hApp hEnvs
    rw [description_listEnvironments_error K o app e hApp hEnvs]
    rfl
  · intro app envs e hApp hEnvs hSvcs
    rw [description_listServices_error K o app envs e hApp hEnvs hSvcs]
    rfl
  · intro content hidx d hd
    have h := hgen content hidx d hd
    refine ⟨h, fun p => ?_⟩
    rw [h]
    simp only [Slice.toList, List.mem_map, List.mem_filter, beq_iff_eq]
    constructor
    · rintro ⟨⟨q, tags⟩, ⟨hmem, hlook⟩, rfl⟩
      exact ⟨tags, hmem, hlook⟩
    · rintro ⟨tags, hmem, hlook⟩
      exact ⟨(p, tags), ⟨hmem, hlook⟩, rfl⟩
  · intro p1 p2 hname hidx d hd
    have h := hgen _ hidx d hd
    rw [h, hname]
    simp [List.lookup]

/-- Witness of the amended C3 in the concrete world, whose index holds a pipeline tagged
for "my-app" and one tagged for "other-app": describing "my-app" queries the index once,
with the single entry for "my-app", and lists the first pipeline only; describing
"ghost-app", for which `GetApplication` fails, does not query the index. -/
theorem description_pipelines_by_app_tag_witness :
    pipelineQueries ((demoAppOpts "my-app" false).description demoAppTagKey).calls =
      [[(demoAppTagKey, "my-app")]] ∧
    (∃ d, ((demoAppOpts "my-app" false).description demoAppTagKey).val = some d ∧
      d.Pipelines = Slice.mk ["pipeline-my-app"] ∧
      ∀ p, p ∈ d.Pipelines.toList ↔
        ∃ tags, (p, tags) ∈
            [("pipeline-my-app", [(demoAppTagKey, "my-app")]),
              ("pipeline-other-app", [(demoAppTagKey, "other-app")])] ∧
          tags.lookup demoAppTagKey = some "my-app") ∧
    pipelineQueries ((demoAppOpts "ghost-app" false).description demoAppTagKey).calls = [] :=
  have h := description_pipelines_by_app_tag demoAppTagKey (demoAppOpts "my-app" false)
  ⟨h.1 ⟨"my-app", "example.com", ()⟩ demoEnvs demoSvcs rfl rfl rfl,
    ⟨_, rfl, h.2.2.2.2.2.2 "pipeline-my-app" "pipeline-other-app" rfl rfl _ rfl,
      (h.2.2.2.2.2.1 _ rfl _ rfl).2⟩,
    (description_pipelines_by_app_tag demoAppTagKey (demoAppOpts "ghost-app" false)).2.1
      demoNoSuchApp rfl⟩

/-- C4: `description` has no partial-result mode.  It returns a description with a nil
error exactly when `GetApplication`, `ListEnvironments`, `ListServices`,
`GetPipelinesByTags`, the version getter constructor and `Version` all succeed; when one
of them fails it returns the nil description and a non-nil error; it never returns both
a description and an error, and never returns neither. -/
theorem description_all_or_nothing {X Y Z P : Type} [Inhabited X] [Inhabited Y]
    (K : String) (o : showAppOpts X Y Z P) :
    ((∃ d, (o.description K).val = some d ∧ (o.description K).err = none) ↔
      AllSucceed K o) ∧
    (¬ AllSucceed K o → (o.description K).val = none ∧ ∃ e, (o.description K).err = some e) ∧
    ¬ ((o.description K).val.isSome = true ∧ (o.description K).err.isSome = true) ∧
    ¬ ((o.description K).val = none ∧ (o.description K).err = none) := by
  rcases description_cases K o with
    ⟨app, envs, svcs, pipelines, vg, version, h1, h2, h3, h4, h5, h6, hv, he⟩ |
    ⟨hnot, hv, e, he⟩
  · have hall : AllSucceed K o := ⟨app, envs, svcs, pipelines, vg, version, h1, h2, h3, h4, h5, h6⟩
    refine ⟨⟨fun _ => hall, fun _ => ⟨_, hv, he⟩⟩, fun h => absurd hall h, ?_, ?_⟩
    · rw [he]; simp
    · rw [hv]; simp
  · refine ⟨⟨?_, fun h => absurd h hnot⟩, fun _ => ⟨hv, e, he⟩, ?_, ?_⟩
    · rintro ⟨d, hd, _⟩
      rw [hv] at hd
      cases hd
    · rw [hv]; simp
    · rw [he]; simp

/-- Witness of C4 in the concrete world: "my-app", for which every call succeeds, gets a
description and a nil error; with a version getter constructor that fails it gets the
nil description and an error. -/
theorem description_all_or_nothing_witness :
    (∃ d, ((demoAppOpts "my-app" false).description demoAppTagKey).val = some d ∧
      ((demoAppOpts "my-app" false).description demoAppTagKey).err = none) ∧
    ((demoConstructorDown.description demoAppTagKey).val = none ∧
      ∃ e, (demoConstructorDown.description demoAppTagKey).err = some e) :=
  ⟨(description_all_or_nothing demoAppTagKey (demoAppOpts "my-app" false)).1.mpr
      ⟨⟨"my-app", "example.com", ()⟩, demoEnvs, demoSvcs, Slice.mk ["pipeline-my-app"],
        demoVersionGetter, "v1.2.0", rfl, rfl, rfl, rfl, rfl, rfl⟩,
    (description_all_or_nothing demoAppTagKey demoConstructorDown).2.1
      (fun ⟨_, _, _, _, _, _, _, _, _, _, h, _⟩ => nomatch h)⟩

/-- C5: the error `description` reports is fixed by the first call that fails, in the
order `GetApplication`, `ListEnvironments`, `ListServices`, `GetPipelinesByTags`, version
resolution (the version getter constructor, then `Version`).  In each case the result is
the nil description, the error derived from the failing call, and a list of calls that
stops at the failing call; the result is written with the name and the failing error
only, so it is the same whatever the later calls would have answered. -/
theorem description_first_failure_decides {X Y Z P : Type} [Inhabited X] [Inhabited Y]
    (K : String) (o : showAppOpts X Y Z P) :
    (∀ e, o.store.GetApplication o.name = .error e →
      o.description K =
        ⟨none, some (Errorf_w ("get application " ++ o.name ++ ": ") e),
          [Call.GetApplication o.name]⟩) ∧
    (∀ app e, o.store.GetApplication o.name = .ok app →
      o.store.ListEnvironments o.name = .error e →
      o.description K =
        ⟨none, some (Errorf_w ("list environments in application " ++ o.name ++ ": ") e),
          [Call.GetApplication o.name, Call.ListEnvironments o.name]⟩) ∧
    (∀ app envs e, o.store.GetApplication o.name = .ok app →
      o.store.ListEnvironments o.name = .ok envs →
      o.store.ListServices o.name = .error e →
      o.description K =
        ⟨none, some (Errorf_w ("list services in application " ++ o.name ++ ": ") e),
          [Call.GetApplication o.name, Call.ListEnvironments o.name,
            Call.ListServices o.name]⟩) ∧
    (∀ app envs svcs e, o.store.GetApplication o.name = .ok app →
      o.store.ListEnvironments o.name = .ok envs →
      o.store.ListServices o.name = .ok svcs →
      o.pipelineSvc.GetPipelinesByTags [(K, o.name)] = .error e →
      o.description K =
        ⟨none, some (Errorf_w ("list pipelines in application " ++ o.name ++ ": ") e),
          [Call.GetApplication o.name, Call.ListEnvironments o.name,
            Call.ListServices o.name, Call.GetPipelinesByTags [(K, o.name)]]⟩) ∧
    (∀ app envs svcs pipelines e, o.store.GetApplication o.name = .ok app →
      o.store.ListEnvironments o.name = .ok envs →
      o.store.ListServices o.name = .ok svcs →
      o.pipelineSvc.GetPipelinesByTags [(K, o.name)] = .ok pipelines →
      o.newVersionGetter o.name = .error e →
      o.description K =
        ⟨none, some e,
          [Call.GetApplication o.name, Call.ListEnvironments o.name,
            Call.ListServices o.name, Call.GetPipelinesByTags [(K, o.name)],
            Call.newVersionGetter o.name]⟩) ∧
    (∀ app envs svcs pipelines vg e, o.store.GetApplication o.name = .ok app →
      o.store.ListEnvironments o.name = .ok envs →
      o.store.ListServices o.name = .ok svcs →
      o.pipelineSvc.GetPipelinesByTags [(K, o.name)] = .ok pipelines →
      o.newVersionGetter o.name = .ok vg →
      vg.Version () = .error e →
      o.description K =
        ⟨none, some (Errorf_w ("get version for application " ++ o.name ++ ": ") e),
          [Call.GetApplication o.name, Call.ListEnvironments o.name,
            Call.ListServices o.name, Call.GetPipelinesByTags [(K, o.name)],
            Call.newVersionGetter o.name, Call.Version]⟩) :=
  ⟨fun e h => description_getApplication_error K o e h,
    fun app e h1 h2 => description_listEnvironments_error K o app e h1 h2,
    fun app envs e h1 h2 h3 => description_listServices_error K o app envs e h1 h2 h3,
    fun app envs svcs e h1 h2 h3 h4 =>
      description_getPipelinesByTags_error K o app envs svcs e h1 h2 h3 h4,
    fun app envs svcs pipelines e h1 h2 h3 h4 h5 =>
      description_newVersionGetter_error K o app envs svcs pipelines e h1 h2 h3 h4 h5,
    fun app envs svcs pipelines vg e h1 h2 h3 h4 h5 h6 =>
      description_version_error K o app envs svcs pipelines vg e h1 h2 h3 h4 h5 h6⟩

/-- Witness of C5 in the concrete world.  The pipeline index fails; in one world the
version getter constructor would fail too, in the other it would succeed.  In both the
result is the same: the error of the pipeline index, and no call to the version getter
constructor. -/
theorem description_first_failure_decides_witness :
    demoPipelinesDown.newVersionGetter "my-app" = .error demoNewDescriberFailed ∧
    demoPipelinesDownOnly.newVersionGetter "my-app" = .ok demoVersionGetter ∧
    demoPipelinesDown.description demoAppTagKey =
      ⟨none, some (Errorf_w "list pipelines in application my-app: " demoBackendDown),
        [Call.GetApplication "my-app", Call.ListEnvironments "my-app",
          Call.ListServices "my-app",
          Call.GetPipelinesByTags [(demoAppTagKey, "my-app")]]⟩ ∧
    demoPipelinesDownOnly.description demoAppTagKey =
      ⟨none, some (Errorf_w "list pipelines in application my-app: " demoBackendDown),
        [Call.GetApplication "my-app", Call.ListEnvironments "my-app",
          Call.ListServices "my-app",
          Call.GetPipelinesByTags [(demoAppTagKey, "my-app")]]⟩ :=
  ⟨rfl, rfl,
    (description_first_failure_decides demoAppTagKey demoPipelinesDown).2.2.2.1
      ⟨"my-app", "example.com", ()⟩ demoEnvs demoSvcs demoBackendDown rfl rfl rfl rfl,
    (description_first_failure_decides demoAppTagKey demoPipelinesDownOnly).2.2.2.1
      ⟨"my-app", "example.com", ()⟩ demoEnvs demoSvcs demoBackendDown rfl rfl rfl rfl⟩

/-- C6, as stated, fails in the concrete world when the version getter constructor
fails: `description` returns the constructor's error itself, with nothing in front of
its message. -/
theorem description_constructor_error_wrapped_counterexample :
    demoConstructorDown.newVersionGetter demoConstructorDown.name =
      .error demoNewDescriberFailed ∧
    (demoConstructorDown.description demoAppTagKey).err = some demoNewDescriberFailed := by
  exact ⟨rfl, rfl⟩

/-- C6, amended: when `GetApplication`, `ListEnvironments`, `ListServices`,
`GetPipelinesByTags` or `Version` is the call that fails, with error `e`, the error
`description` returns has as message a lead naming the operation and the application
name, followed by the message of `e`; it wraps `e` and is not `e` itself.  When the
version getter constructor is the call that fails, `description` returns its error
unchanged. -/
theorem description_wraps_failures {X Y Z P : Type} [Inhabited X] [Inhabited Y]
    (K : String) (o : showAppOpts X Y Z P) :
    (∀ e, o.store.GetApplication o.name = .error e →
      WrappedWith ("get application " ++ o.name ++ ": ") e (o.description K).err) ∧
    (∀ app e, o.store.GetApplication o.name = .ok app →
      o.store.ListEnvironments o.name = .error e →
      WrappedWith ("list environments in application " ++ o.name ++ ": ") e
        (o.description K).err) ∧
    (∀ app envs e, o.store.GetApplication o.name = .ok app →
      o.store.ListEnvironments o.name = .ok envs →
      o.store.ListServices o.name = .error e →
      WrappedWith ("list services in application " ++ o.name ++ ": ") e
        (o.description K).err) ∧
    (∀ app envs svcs e, o.store.GetApplication o.name = .ok app →
      o.store.ListEnvironments o.name = .ok envs →
      o.store.ListServices o.name = .ok svcs →
      o.pipelineSvc.GetPipelinesByTags [(K, o.name)] = .error e →
      WrappedWith ("list pipelines in application " ++ o.name ++ ": ") e
        (o.description K).err) ∧
    (∀ app envs svcs pipelines vg e, o.store.GetApplication o.name = .ok app →
      o.store.ListEnvironments o.name = .ok envs →
      o.store.ListServices o.name = .ok svcs →
      o.pipelineSvc.GetPipelinesByTags [(K, o.name)] = .ok pipelines →
      o.newVersionGetter o.name = .ok vg →
      vg.Version () = .error e →
      WrappedWith ("get version for application " ++ o.name ++ ": ") e
        (o.description K).err) ∧
    (∀ app envs svcs pipelines e, o.store.GetApplication o.name = .ok app →
      o.store.ListEnvironments o.name = .ok envs →
      o.store.ListServices o.name = .ok svcs →
      o.pipelineSvc.GetPipelinesByTags [(K, o.name)] = .ok pipelines →
      o.newVersionGetter o.name = .error e →
      (o.description K).err = some e) := by
  refine ⟨?_, ?_, ?_, ?_, ?_, ?_⟩
  · intro e h
    rw [description_getApplication_error K o e h]
    exact ⟨_, rfl, rfl, rfl, wrapped_ne_cause _ e⟩
  · intro app e h1 h2
    rw [description_listEnvironments_error K o app e h1 h2]
    exact ⟨_, rfl, rfl, rfl, wrapped_ne_cause _ e⟩
  · intro app envs e h1 h2 h3
    rw [description_listServices_error K o app envs e h1 h2 h3]
    exact ⟨_, rfl, rfl, rfl, wrapped_ne_cause _ e⟩
  · intro app envs svcs e h1 h2 h3 h4
    rw [description_getPipelinesByTags_error K o app envs svcs e h1 h2 h3 h4]
    exact ⟨_, rfl, rfl, rfl, wrapped_ne_cause _ e⟩
  · intro app envs svcs pipelines vg e h1 h2 h3 h4 h5 h6
    rw [description_version_error K o app envs svcs pipelines vg e h1 h2 h3 h4 h5 h6]
    exact ⟨_, rfl, rfl, rfl, wrapped_ne_cause _ e⟩
  · intro app envs svcs pipelines e h1 h2 h3 h4 h5
    rw [description_newVersionGetter_error K o app envs svcs pipelines e h1 h2 h3 h4 h5]

/-- Witness of the amended C6 in the concrete world: a failing `Version` is reported
wrapped, with the application name in the lead. -/
theorem description_wraps_failures_witness :
    WrappedWith ("get version for application " ++ demoVersionDown.name ++ ": ")
      demoBackendDown (demoVersionDown.description demoAppTagKey).err :=
  (description_wraps_failures demoAppTagKey demoVersionDown).2.2.2.2.1
    ⟨"my-app", "example.com", ()⟩ demoEnvs demoSvcs (Slice.mk ["pipeline-my-app"])
    ⟨fun _ => .error demoBackendDown⟩ demoBackendDown rfl rfl rfl rfl rfl rfl

/-- C7, as stated, fails in the concrete world for the environment name "ghost" with no
application name supplied: `Validate` returns nil without querying the store, `Ask` then
resolves the application to "my-app" and keeps the name "ghost", and "ghost" does not
exist in "my-app". -/
theorem validate_env_without_app_counterexample :
    (demoEnvOpts "" "ghost" false).name ≠ "" ∧
    (demoEnvOpts "" "ghost" false).Validate.err = none ∧
    (demoEnvOpts "" "ghost" false).Validate.calls = [] ∧
    ((demoEnvOpts "" "ghost" false).Ask id).err = none ∧
    ((demoEnvOpts "" "ghost" false).Ask id).state.appName = "my-app" ∧
    ((demoEnvOpts "" "ghost" false).Ask id).state.name = "ghost" ∧
    demoStore.GetEnvironment "my-app" "ghost" =
      .error (GoError.leaf ErrKind.notFound "couldn't find environment") := by
  refine ⟨by decide, rfl, rfl, rfl, rfl, rfl, rfl⟩

/-- C7, amended: for a `showEnvOpts` with a non-empty application name and a non-empty
environment name, whenever `GetEnvironment` fails for that application and name,
`Validate` returns a non-nil error, which is the error of `GetEnvironment` itself when
`GetApplication` succeeds.  When the application name is empty, `Validate` returns nil
without querying the store. -/
theorem validate_env_with_app {E X Y Z : Type} (o : showEnvOpts E X Y Z) :
    (o.appName ≠ "" → o.name ≠ "" →
      ∀ e, o.store.GetEnvironment o.appName o.name = .error e →
        (∃ err, o.Validate.err = some err) ∧
        (∀ app, o.store.GetApplication o.appName = .ok app → o.Validate.err = some e)) ∧
    (o.appName = "" → o.Validate.err = none ∧ o.Validate.calls = []) := by
  constructor
  · intro hApp hName e hEnv
    cases hGet : o.store.GetApplication o.appName with
    | error e2 =>
      refine ⟨⟨e2, ?_⟩, fun app h => by cases h⟩
      simp [showEnvOpts.Validate, hApp, hGet]
    | ok app =>
      have h : o.Validate.err = some e := by
        simp [showEnvOpts.Validate, hApp, hName, hGet, hEnv]
      exact ⟨⟨e, h⟩, fun _ _ => h⟩
  · intro hApp
    simp [showEnvOpts.Validate, hApp]

/-- Witness of the amended C7 in the concrete world: with the application "my-app"
supplied, the unknown environment "ghost" is rejected with the store's error. -/
theorem validate_env_with_app_witness :
    (∃ err, (demoEnvOpts "my-app" "ghost" false).Validate.err = some err) ∧
    (demoEnvOpts "my-app" "ghost" false).Validate.err = some demoNoSuchEnv :=
  have h := (validate_env_with_app (demoEnvOpts "my-app" "ghost" false)).1
    (by decide) (by decide) demoNoSuchEnv rfl
  ⟨h.1, h.2 ⟨"my-app", "example.com", ()⟩ rfl⟩

/-- C8, as stated, fails in the concrete world at the application "new-app", for which
the store returns an empty, non-nil list of environments and of workloads: the
description is produced, and its `Envs` and `Services` are the nil slice, the value of
a collection that was never set. -/
theorem description_empty_collections_counterexample :
    demoStore.ListEnvironments "new-app" = .ok (Slice.mk []) ∧
    demoStore.ListServices "new-app" = .ok (Slice.mk []) ∧
    ∃ d, ((demoAppOpts "new-app" false).description demoAppTagKey).val = some d ∧
      d.Envs = Slice.nil ∧ d.Services = Slice.nil ∧
      d.Envs.isNil = true ∧ d.Services.isNil = true :=
  ⟨rfl, rfl, _, rfl, rfl, rfl, rfl, rfl⟩

/-- C8, amended: when every collaborator call succeeds and the store's list of workloads
(respectively of environments) has no element, `description` returns a description with
a nil error whose `Services` (respectively `Envs`) has zero elements and is the nil
slice. -/
theorem description_empty_collections {X Y Z P : Type} [Inhabited X] [Inhabited Y]
    (K : String) (o : showAppOpts X Y Z P) (app : Application Z)
    (envs : Slice (Environment X)) (svcs : Slice (Workload Y)) (pipelines : Slice P)
    (vg : versionGetter) (version : String)
    (hApp : o.store.GetApplication o.name = .ok app)
    (hEnvs : o.store.ListEnvironments o.name = .ok envs)
    (hSvcs : o.store.ListServices o.name = .ok svcs)
    (hPipes : o.pipelineSvc.GetPipelinesByTags [(K, o.name)] = .ok pipelines)
    (hNew : o.newVersionGetter o.name = .ok vg)
    (hVer : vg.Version () = .ok version) :
    ∃ d, (o.description K).val = some d ∧ (o.description K).err = none ∧
      (svcs.len = 0 → d.Services.len = 0 ∧ d.Services = Slice.nil) ∧
      (envs.len = 0 → d.Envs.len = 0 ∧ d.Envs = Slice.nil) := by
  rw [description_ok K o app envs svcs pipelines vg version hApp hEnvs hSvcs hPipes hNew hVer]
  refine ⟨_, rfl, rfl, ?_, ?_⟩
  · intro h
    have h0 : svcs.toList = [] := List.length_eq_zero.mp h
    have h1 : trimSvcs svcs = Slice.nil := by rw [trimSvcs, h0]; rfl
    show (trimSvcs svcs).len = 0 ∧ trimSvcs svcs = Slice.nil
    rw [h1]
    exact ⟨rfl, rfl⟩
  · intro h
    have h0 : envs.toList = [] := List.length_eq_zero.mp h
    have h1 : trimEnvs envs = Slice.nil := by rw [trimEnvs, h0]; rfl
    show (trimEnvs envs).len = 0 ∧ trimEnvs envs = Slice.nil
    rw [h1]
    exact ⟨rfl, rfl⟩

/-- Witness of the amended C8 in the concrete world, at the application "new-app". -/
theorem description_empty_collections_witness :
    ∃ d, ((demoAppOpts "new-app" false).description demoAppTagKey).val = some d ∧
      ((demoAppOpts "new-app" false).description demoAppTagKey).err = none ∧
      ((Slice.mk ([] : List (Workload String))).len = 0 →
        d.Services.len = 0 ∧ d.Services = Slice.nil) ∧
      ((Slice.mk ([] : List (Environment String))).len = 0 →
        d.Envs.len = 0 ∧ d.Envs = Slice.nil) :=
  description_empty_collections demoAppTagKey (demoAppOpts "new-app" false)
    ⟨"new-app", "", ()⟩ (Slice.mk []) (Slice.mk []) (Slice.mk []) demoVersionGetter "v1.2.0"
    rfl rfl rfl rfl rfl rfl

/-- C9: `Execute` of `app show` and `Execute` of `env show` write nothing when they
return an error, and write exactly one string when they return nil: the `HumanString()`
of the description when `shouldOutputJSON` is false, the result of `JSONString()` when
it is true.  `Execute` of `app show` always returns; `Execute` of `env show` writes
nothing either in the one case where it does not return. -/
theorem execute_writes_only_on_success {E X Y Z P : Type} [Inhabited X] [Inhabited Y]
    (K : String) (HumanString : App X Y P → String)
    (JSONString : App X Y P → Except GoError String) (o : showAppOpts X Y Z P)
    (envHumanString : E → String) (envJSONString : E → Except GoError String)
    (oe : showEnvOpts E X Y Z) :
    ((o.Execute K HumanString JSONString).outcome ≠ Outcome.panicked) ∧
    (∀ err, (o.Execute K HumanString JSONString).outcome = Outcome.returned (some err) →
      (o.Execute K HumanString JSONString).w = o.w) ∧
    ((o.Execute K HumanString JSONString).outcome = Outcome.returned none →
      ∃ d, (o.description K).val = some d ∧
        ((o.shouldOutputJSON = false ∧
            (o.Execute K HumanString JSONString).w = o.w ++ [HumanString d]) ∨
          (o.shouldOutputJSON = true ∧ ∃ data, JSONString d = .ok data ∧
            (o.Execute K HumanString JSONString).w = o.w ++ [data]))) ∧
    (∀ err, (oe.Execute envHumanString envJSONString).outcome = Outcome.returned (some err) →
      (oe.Execute envHumanString envJSONString).w = oe.w) ∧
    ((oe.Execute envHumanString envJSONString).outcome = Outcome.panicked →
      (oe.Execute envHumanString envJSONString).w = oe.w) ∧
    ((oe.Execute envHumanString envJSONString).outcome = Outcome.returned none →
      ∃ describer env,
        oe.initEnvDescriber oe.toshowEnvVars oe.describer = (none, some describer) ∧
        describer.Describe () = .ok env ∧
        ((oe.shouldOutputJSON = false ∧
            (oe.Execute envHumanString envJSONString).w = oe.w ++ [envHumanString env]) ∨
          (oe.shouldOutputJSON = true ∧ ∃ data, envJSONString env = .ok data ∧
            (oe.Execute envHumanString envJSONString).w = oe.w ++ [data]))) := by
  have happ :
      ((o.Execute K HumanString JSONString).outcome ≠ Outcome.panicked) ∧
      (∀ err, (o.Execute K HumanString JSONString).outcome = Outcome.returned (some err) →
        (o.Execute K HumanString JSONString).w = o.w) ∧
      ((o.Execute K HumanString JSONString).outcome = Outcome.returned none →
        ∃ d, (o.description K).val = some d ∧
          ((o.shouldOutputJSON = false ∧
              (o.Execute K HumanString JSONString).w = o.w ++ [HumanString d]) ∨
            (o.shouldOutputJSON = true ∧ ∃ data, JSONString d = .ok data ∧
              (o.Execute K HumanString JSONString).w = o.w ++ [data]))) := by
    have hcases := description_cases K o
    rcases hd : o.description K with ⟨val, err, calls⟩
    rw [hd] at hcases
    cases err with
    | some e =>
      simp [showAppOpts.Execute, hd]
    | none =>
      cases val with
      | none =>
        rcases hcases with ⟨_, _, _, _, _, _, _, _, _, _, _, _, hv, _⟩ | ⟨_, _, e, he⟩
        · cases hv
        · cases he
      | some d =>
        cases hjson : o.shouldOutputJSON with
        | false => simp [showAppOpts.Execute, hd, hjson, Fprint]
        | true =>
          cases hdata : JSONString d with
          | error e => simp [showAppOpts.Execute, hd, hjson, hdata]
          | ok data => simp [showAppOpts.Execute, hd, hjson, hdata, Fprint]
  refine ⟨happ.1, happ.2.1, happ.2.2, ?_⟩
  rcases hinit : oe.initEnvDescriber oe.toshowEnvVars oe.describer with ⟨ierr, idesc⟩
  cases ierr with
  | some e => simp [showEnvOpts.Execute, hinit]
  | none =>
    cases idesc with
    | none => simp [showEnvOpts.Execute, hinit]
    | some describer =>
      cases hdesc : describer.Describe () with
      | error e => simp [showEnvOpts.Execute, hinit, hdesc]
      | ok env =>
        cases hjson : oe.shouldOutputJSON with
        | false => simp [showEnvOpts.Execute, hinit, hdesc, hjson, Fprint]
        | true =>
          cases hdata : envJSONString env with
          | error e => simp [showEnvOpts.Execute, hinit, hdesc, hjson, hdata]
          | ok data => simp [showEnvOpts.Execute, hinit, hdesc, hjson, hdata, Fprint]

/-- Witness of C9 in the concrete world: `app show` of "my-app" in human mode returns nil
and writes the one rendering; `env show` of "test" in JSON mode, with an encoder that
fails, returns an error and writes nothing. -/
theorem execute_writes_only_on_success_witness :
    (∃ d, ((demoAppOpts "my-app" false).description demoAppTagKey).val = some d ∧
      (((demoAppOpts "my-app" false).shouldOutputJSON = false ∧
          ((demoAppOpts "my-app" false).Execute demoAppTagKey demoHumanString
            demoJSONString).w = (demoAppOpts "my-app" false).w ++ [demoHumanString d]) ∨
        ((demoAppOpts "my-app" false).shouldOutputJSON = true ∧
          ∃ data, demoJSONString d = .ok data ∧
            ((demoAppOpts "my-app" false).Execute demoAppTagKey demoHumanString
              demoJSONString).w = (demoAppOpts "my-app" false).w ++ [data]))) ∧
    ((demoEnvOpts "my-app" "test" true).Execute demoEnvHumanString demoEnvJSONString).w =
      (demoEnvOpts "my-app" "test" true).w :=
  have h := execute_writes_only_on_success demoAppTagKey demoHumanString demoJSONString
    (demoAppOpts "my-app" false) demoEnvHumanString demoEnvJSONString
    (demoEnvOpts "my-app" "test" true)
  ⟨h.2.2.1 rfl, h.2.2.2.1 (GoError.leaf ErrKind.internal "unsupported value") rfl⟩

/-- C10: `showEnvOpts.Ask` asks only for what is empty.  After a successful `Ask`: a
supplied application name is kept and the application selector is not invoked, an empty
one is replaced by the selector's choice; a supplied environment name is kept and the
environment selector is not invoked, an empty one is replaced by the choice of the
environment selector, which is invoked once, with exactly the resolved application
name.  When the application selection fails, `Ask` returns an error, the environment
selector is not invoked and both names are unchanged. -/
theorem ask_resolves_empty_names {E X Y Z : Type} (H : String → String)
    (o : showEnvOpts E X Y Z) :
    ((o.Ask H).err = none →
      (o.appName ≠ "" →
        (o.Ask H).state.appName = o.appName ∧ appSelections (o.Ask H).calls = 0) ∧
      (o.appName = "" →
        o.sel.Application envShowAppNamePrompt envShowAppNameHelpPrompt =
          .ok (o.Ask H).state.appName ∧ appSelections (o.Ask H).calls = 1) ∧
      (o.name ≠ "" →
        (o.Ask H).state.name = o.name ∧ envSelections (o.Ask H).calls = []) ∧
      (o.name = "" →
        o.sel.Environment (envNamePrompt H (o.Ask H).state.appName) envShowHelpPrompt
          (o.Ask H).state.appName = .ok (o.Ask H).state.name ∧
        envSelections (o.Ask H).calls = [(o.Ask H).state.appName])) ∧
    (o.appName = "" →
      ∀ e, o.sel.Application envShowAppNamePrompt envShowAppNameHelpPrompt = .error e →
        (o.Ask H).err = some (Errorf_w "select application: " e) ∧
        envSelections (o.Ask H).calls = [] ∧
        (o.Ask H).state.appName = o.appName ∧ (o.Ask H).state.name = o.name) := by
  by_cases hApp : o.appName = ""
  · cases hsel : o.sel.Application envShowAppNamePrompt envShowAppNameHelpPrompt with
    | error e =>
      simp [showEnvOpts.Ask, showEnvOpts.askApp, hApp, hsel, envSelections]
    | ok app =>
      by_cases hName : o.name = ""
      · cases henv : o.sel.Environment (envNamePrompt H app) envShowHelpPrompt app with
        | error e =>
          simp [showEnvOpts.Ask, showEnvOpts.askApp, showEnvOpts.askEnvName, hApp, hsel,
            hName, henv]
        | ok env =>
          simp [showEnvOpts.Ask, showEnvOpts.askApp, showEnvOpts.askEnvName, hApp, hsel,
            hName, henv, envSelections, appSelections]
      · simp [showEnvOpts.Ask, showEnvOpts.askApp, showEnvOpts.askEnvName, hApp, hsel,
          hName, envSelections, appSelections]
  · by_cases hName : o.name = ""
    · cases henv : o.sel.Environment (envNamePrompt H o.appName) envShowHelpPrompt
          o.appName with
      | error e =>
        simp [showEnvOpts.Ask, showEnvOpts.askApp, showEnvOpts.askEnvName, hApp, hName, henv]
      | ok env =>
        simp [showEnvOpts.Ask, showEnvOpts.askApp, showEnvOpts.askEnvName, hApp, hName,
          henv, envSelections, appSelections]
    · simp [showEnvOpts.Ask, showEnvOpts.askApp, showEnvOpts.askEnvName, hApp, hName,
        envSelections, appSelections]

/-- Witness of C10 in the concrete world: with nothing supplied, `Ask` resolves the
application to the selector's "my-app" and then the environment to "test", the
environment selector being asked about "my-app"; with a failing application selector,
`Ask` fails and never asks for an environment. -/
theorem ask_resolves_empty_names_witness :
    (((demoEnvOpts "" "" false).sel.Application envShowAppNamePrompt
        envShowAppNameHelpPrompt = .ok ((demoEnvOpts "" "" false).Ask id).state.appName ∧
      appSelections ((demoEnvOpts "" "" false).Ask id).calls = 1) ∧
    ((demoEnvOpts "" "" false).sel.Environment
        (envNamePrompt id ((demoEnvOpts "" "" false).Ask id).state.appName)
        envShowHelpPrompt ((demoEnvOpts "" "" false).Ask id).state.appName =
        .ok ((demoEnvOpts "" "" false).Ask id).state.name ∧
      envSelections ((demoEnvOpts "" "" false).Ask id).calls =
        [((demoEnvOpts "" "" false).Ask id).state.appName])) ∧
    (((demoEnvOptsNoApp "").Ask id).err =
        some (Errorf_w "select application: " demoBackendDown) ∧
      envSelections ((demoEnvOptsNoApp "").Ask id).calls = [] ∧
      ((demoEnvOptsNoApp "").Ask id).state.appName = (demoEnvOptsNoApp "").appName ∧
      ((demoEnvOptsNoApp "").Ask id).state.name = (demoEnvOptsNoApp "").name) :=
  have h := (ask_resolves_empty_names id (demoEnvOpts "" "" false)).1 rfl
  ⟨⟨h.2.1 rfl, h.2.2.2 rfl⟩,
    (ask_resolves_empty_names id (demoEnvOptsNoApp "")).2 rfl demoBackendDown rfl⟩

end CopilotShow
